import Mathlib

/-!
Verification development for the ING FR unofficial API client
(repository GuillaumeKergreis/ing-fr-unofficial-api).

This file gives a shallow embedding of:

* the virtual-keypad solver `PasswordKeypad` (src/PasswordKeypad.js):
  the fixed cell geometry `digitsPositions`, the per-cell template
  classification loop of `getDigits`, and the click-coordinate synthesis
  of `getClicksPositions`;
* the SCA flow controller `IngApi` (src/unnamed/part_002, mirrored by
  src/api.js): the request bodies built by
  `validatePinSensitiveOperationAction` / `sendOneTimePassword`, the flows
  `accessMoreTransactions`, `makeTransfer` and `addNewBeneficiary` as
  sequences of issued HTTP requests, the OTP channel selection, and the
  session-header update lines of `callIngSecureApi` together with
  `generateSaveInvestApiToken`.

Modelling conventions:

* Image processing (Jimp reads, crops, resizes) is not embeddable; the
  classifier is parameterised by the pixel-difference matrix
  `diff cell template` (the value of `Jimp.diff(keypadDigit, labeledDigit).percent`
  in src/PasswordKeypad.js line 70), and the solver by the classified
  digit list `digits` (the value of `await this.getDigits()`).
* `Math.random()` is modelled by a stream `rand : Nat → Rat`; call `i` of
  `Math.random()` during one `getClicksPositions` run reads `rand i`
  (two calls per requested digit, X first then Y).
* JavaScript exceptions (e.g. reading `.x` of `digitsPositions[-1]` after a
  failed `indexOf`, or `.phone` of an `undefined` channel) are modelled by
  `Option`/`FlowOutcome.crashed`; a JS value that may be `undefined` or
  `null` is an `Option`.
* Server responses are injected as parameters; the list of issued secure-API
  requests is returned as an explicit trace (`List ApiCall`).
-/

/-- One keypad cell rectangle, an entry of the `digitsPositions` table of
`PasswordKeypad` (src/PasswordKeypad.js lines 22-33). -/
structure Rect where
  x : ℕ
  y : ℕ
  width : ℕ
  height : ℕ
  deriving DecidableEq

/-- The ten fixed cell rectangles of the 484×190 keypad image, transcribed
from the constructor of `PasswordKeypad` (src/PasswordKeypad.js lines 22-33). -/
def digitsPositions : List Rect :=
  [⟨3, 3, 90, 88⟩,
   ⟨99, 3, 90, 88⟩,
   ⟨196, 3, 90, 88⟩,
   ⟨293, 3, 90, 88⟩,
   ⟨390, 3, 90, 88⟩,
   ⟨3, 98, 90, 88⟩,
   ⟨99, 98, 90, 88⟩,
   ⟨196, 98, 90, 88⟩,
   ⟨293, 98, 90, 88⟩,
   ⟨390, 98, 90, 88⟩]

/-- The inner classification loop of `PasswordKeypad.getDigits`
(src/PasswordKeypad.js lines 66-76): scan the template differences `vs`
(template index `j` onwards), keeping the best template index `b` and best
difference `p` so far, updating only on a strictly smaller difference. -/
def getDigitsLoop : List ℚ → ℕ → ℕ → ℚ → ℕ
  | [], _, b, _ => b
  | v :: vs, j, b, p =>
    if v < p then getDigitsLoop vs (j + 1) j v else getDigitsLoop vs (j + 1) b p

/-- Classification of one keypad cell from its list of pixel-difference
percentages against the ten templates: `closestDigit` starts at `0` and
`closestPercentage` at `1` (src/PasswordKeypad.js lines 67-68). -/
def classifyCell (diffs : List ℚ) : ℕ :=
  getDigitsLoop diffs 0 0 1

/-- Embedding of `PasswordKeypad.getDigits` (src/PasswordKeypad.js lines 41-80):
for each of the `digitsPositions.length` keypad cells, classify it against the
`digitsPositions.length` labeled templates; `diff c t` is the pixel-difference
percentage `Jimp.diff(keypadDigits[c], labeledDigits[t]).percent`. -/
def getDigits (diff : ℕ → ℕ → ℚ) : List ℕ :=
  (List.range digitsPositions.length).map
    (fun c => classifyCell ((List.range digitsPositions.length).map (fun t => diff c t)))

/-- JavaScript `Array.prototype.indexOf`: index of the first occurrence,
`none` for the JS result `-1` (src/PasswordKeypad.js line 103). -/
def jsIndexOf : List ℕ → ℕ → Option ℕ
  | [], _ => none
  | x :: xs, v => if x = v then some 0 else (jsIndexOf xs v).map (fun i => i + 1)

/-- JavaScript string indexing `password[p - 1]` for a 1-based position `p`
(src/PasswordKeypad.js line 96); the password is modelled as its list of digit
values (the source applies `parseInt` to the character). `p = 0` would read
`password[-1]`, which is `undefined` in JS. -/
def pwdDigitAt (password : List ℕ) (p : ℕ) : Option ℕ :=
  if p = 0 then none else password[p - 1]?

/-- Click-coordinate synthesis for one digit (src/PasswordKeypad.js lines
103-106): locate the first keypad cell classified as `d`, then return the
cell's scaled top-left corner plus the random offsets `rx`, `ry` (the two
`Math.random()` draws) times the scaled width/height. `none` models the JS
`TypeError` thrown when `indexOf` returned `-1`. -/
def clickForDigit (m : ℕ) (digits : List ℕ) (rx ry : ℚ) (d : ℕ) : Option (ℚ × ℚ) :=
  match jsIndexOf digits d with
  | none => none
  | some i =>
    match digitsPositions[i]? with
    | none => none
    | some r =>
      some ((r.x : ℚ) * (m : ℚ) + rx * (r.width : ℚ) * (m : ℚ),
            (r.y : ℚ) * (m : ℚ) + ry * (r.height : ℚ) * (m : ℚ))

/-- The click-position loop of `PasswordKeypad.getClicksPositions`
(src/PasswordKeypad.js lines 100-109), over the already-looked-up password
digits (`none` marks an out-of-range password position, whose `parseInt`
result `NaN` makes `indexOf` return `-1` and the subsequent access throw);
`k` counts already-produced clicks so that entry `k` reads the random draws
`rand (2*k)` and `rand (2*k+1)`. -/
def clicksLoop (m : ℕ) (digits : List ℕ) (rand : ℕ → ℚ) :
    List (Option ℕ) → ℕ → Option (List (ℚ × ℚ))
  | [], _ => some []
  | o :: os, k =>
    match o with
    | none => none
    | some d =>
      match clickForDigit m digits (rand (2 * k)) (rand (2 * k + 1)) d with
      | none => none
      | some c =>
        match clicksLoop m digits rand os (k + 1) with
        | none => none
        | some cs => some (c :: cs)

/-- Embedding of `PasswordKeypad.getClicksPositions` (src/PasswordKeypad.js
lines 89-112) with the classification result `digits` (the value of
`await this.getDigits()`) as a parameter and `m` the `sizeMultiplication`. -/
def getClicksPositions (m : ℕ) (digits : List ℕ) (missingPasswordDigitsPositions : List ℕ)
    (password : List ℕ) (rand : ℕ → ℚ) : Option (List (ℚ × ℚ)) :=
  clicksLoop m digits rand (missingPasswordDigitsPositions.map (pwdDigitAt password)) 0

/-- A requested digit can be clicked: it occurs in the classified keypad and
its first occurrence indexes an existing cell rectangle. -/
def digitClickable (digits : List ℕ) (d : ℕ) : Prop :=
  ∃ i, jsIndexOf digits d = some i ∧ i < digitsPositions.length

/-- The transfer operation context built in `IngApi.makeTransfer`
(src/unnamed/part_002 line 1042). -/
structure TransferRequest where
  fromAccount : String
  toAccount : String
  amount : ℚ
  label : String
  executionDate : String
  deriving DecidableEq

/-- The external-account operation context returned by
`IngApi.addExternalAccountRequest` (src/unnamed/part_002 lines 1122-1125). -/
structure ExternalAccountRequest where
  accountHolderName : String
  bankName : String
  bic : String
  iban : String
  deriving DecidableEq

/-- The optional `request` argument of `validatePinSensitiveOperationAction`,
`sendOneTimePassword` and `confirmOneTimePassword`: either a transfer request
or an external-accounts request (src/unnamed/part_002 line 964). -/
inductive CtxRequest where
  | transfer (t : TransferRequest)
  | externalAccount (e : ExternalAccountRequest)
  deriving DecidableEq

/-- Body of the `sca/validatePin` POST built by
`IngApi.validatePinSensitiveOperationAction` (src/unnamed/part_002 lines
967-972). `keyPadClickPositions` is the `keyPad.clickPositions` field. -/
structure ValidatePinBody where
  keyPadClickPositions : List (ℚ × ℚ)
  sensitiveOperationAction : String
  transactionRequest : Option CtxRequest
  externalAccountsRequest : Option CtxRequest
  deriving DecidableEq

/-- Body of the `sca/sendOtp` POST built by `IngApi.sendOneTimePassword`
(src/unnamed/part_002 lines 983-988). The `Option String` fields model JS
values that may be `undefined` (JSON.stringify drops them). -/
structure SendOtpBody where
  sensitiveOperationAction : String
  secretCode : Option String
  channelValue : Option String
  channelType : Option String
  transactionRequest : Option CtxRequest
  externalAccountsRequest : Option CtxRequest
  deriving DecidableEq

/-- One OTP delivery channel, an element of the response of
`getSensitiveOperationOneTimePasswordChannels` (src/unnamed/part_002 line 884). -/
structure OtpChannel where
  phone : Option String
  type : String
  deriving DecidableEq

/-- Response of `sca/keyPad` (src/unnamed/part_002 line 939). -/
structure KeypadMetaResp where
  pinPositions : List ℕ
  keyPadUrl : String
  deriving DecidableEq

/-- Response of `sca/validatePin` (src/unnamed/part_002 line 965);
`secretCode` is `none` when the server answered with an error payload. -/
structure ValidatePinResp where
  validated : Bool
  secretCode : Option String
  executed : Bool
  deriving DecidableEq

/-- Response of `transfers/v3/new/validate` (src/unnamed/part_002 line 1076). -/
structure ValidateTransferResp where
  executionSuggestedDate : String
  deriving DecidableEq

/-- Error payload of a business-error response (src/unnamed/part_002 lines
1222-1234, `IngApiError`); the free-form `values` object is abstracted away. -/
structure IngError where
  code : String
  message : String
  deriving DecidableEq

/-- Response of `externalAccounts/add/validateRequest`: either the
external-account context or an error payload (src/unnamed/part_002 line 1120). -/
inductive ExternalAccountResp where
  | ok (e : ExternalAccountRequest)
  | error (err : IngError)
  deriving DecidableEq

/-- One secure-API HTTP request issued by the flow controller, identified by
its endpoint and the request fields the flows fill in. -/
inductive ApiCall where
  | validateNewTransfer (fromAccount toAccount : String) (amount : ℚ) (label : String)
      (executionDate : Option String)
  | scaKeyPad (sensitiveOperationAction : String)
  | keypadImage (keyPadUrl : String)
  | validatePin (body : ValidatePinBody)
  | otpChannels (sensitiveOperationAction : String)
  | sendOtp (body : SendOtpBody)
  | addExternalAccountValidateRequest (accountHolderName iban : String)
  | toggleScaStatus (sensitiveOperationAction : String)
  deriving DecidableEq

/-- Outcome of a sensitive-operation flow: the untouched business-error
payload (the early `return externalAccountRequest`), the sendOtp body whose
server response the flow returns, or a thrown JS exception. -/
inductive FlowOutcome where
  | errorPayload (e : IngError)
  | otpSent (body : SendOtpBody)
  | crashed
  deriving DecidableEq

/-- Embedding of `IngApi.validatePinSensitiveOperationAction`
(src/unnamed/part_002 lines 967-972): build the `sca/validatePin` body,
attaching the context as `transactionRequest` for `EXTERNAL_TRANSFER`, else as
`externalAccountsRequest` for `ADD_TRANSFER_BENEFICIARY`; return the issued
request together with the body. -/
def validatePinSensitiveOperationAction (clickPositions : List (ℚ × ℚ))
    (sensitiveOperationAction : String) (request : Option CtxRequest) :
    List ApiCall × ValidatePinBody :=
  let body : ValidatePinBody :=
    { keyPadClickPositions := clickPositions
      sensitiveOperationAction := sensitiveOperationAction
      transactionRequest :=
        if sensitiveOperationAction = "EXTERNAL_TRANSFER" ∧ request.isSome
        then request else none
      externalAccountsRequest :=
        if ¬(sensitiveOperationAction = "EXTERNAL_TRANSFER" ∧ request.isSome) ∧
            sensitiveOperationAction = "ADD_TRANSFER_BENEFICIARY" ∧ request.isSome
        then request else none }
  ([ApiCall.validatePin body], body)

/-- Embedding of `IngApi.sendOneTimePassword` (src/unnamed/part_002 lines
983-988): build the `sca/sendOtp` body the same way and issue the request
unconditionally — the source performs no check of `secretCode` or of any
flow state before calling the transport. -/
def sendOneTimePassword (sensitiveOperationAction : String)
    (secretCode channelValue channelType : Option String)
    (request : Option CtxRequest) : List ApiCall × SendOtpBody :=
  let body : SendOtpBody :=
    { sensitiveOperationAction := sensitiveOperationAction
      secretCode := secretCode
      channelValue := channelValue
      channelType := channelType
      transactionRequest :=
        if sensitiveOperationAction = "EXTERNAL_TRANSFER" ∧ request.isSome
        then request else none
      externalAccountsRequest :=
        if ¬(sensitiveOperationAction = "EXTERNAL_TRANSFER" ∧ request.isSome) ∧
            sensitiveOperationAction = "ADD_TRANSFER_BENEFICIARY" ∧ request.isSome
        then request else none }
  ([ApiCall.sendOtp body], body)

/-- OTP channel selection (src/unnamed/part_002 lines 1021, 1054, 1110):
`oneTimePasswordChannels.find(channel => channel.type === "SMS_MOBILE")`. -/
def findSmsChannel (channels : List OtpChannel) : Option OtpChannel :=
  channels.find? (fun channel => channel.type == "SMS_MOBILE")

/-- Embedding of `IngApi.accessMoreTransactions` (src/unnamed/part_002 lines
1008-1025) as the trace of issued requests, with the server responses and the
keypad classification injected. A `crashed` outcome is the JS `TypeError`
thrown when the click synthesis fails or no SMS_MOBILE channel exists; note
the `sendOneTimePassword` call site passes no context argument. -/
def accessMoreTransactions (password : List ℕ)
    (missingPasswordDigitsPositions : KeypadMetaResp) (digits : List ℕ)
    (rand : ℕ → ℚ) (validatePinResp : ValidatePinResp)
    (oneTimePasswordChannels : List OtpChannel) : List ApiCall × FlowOutcome :=
  let c1 := ApiCall.scaKeyPad "DISPLAY_TRANSACTIONS"
  let c2 := ApiCall.keypadImage missingPasswordDigitsPositions.keyPadUrl
  match getClicksPositions 5 digits missingPasswordDigitsPositions.pinPositions password rand with
  | none => ([c1, c2], FlowOutcome.crashed)
  | some clickPositions =>
    let vp := validatePinSensitiveOperationAction clickPositions "DISPLAY_TRANSACTIONS" none
    let c4 := ApiCall.otpChannels "DISPLAY_TRANSACTIONS"
    match findSmsChannel oneTimePasswordChannels with
    | none => ([c1, c2] ++ vp.1 ++ [c4], FlowOutcome.crashed)
    | some otpSmsChannel =>
      let send := sendOneTimePassword "DISPLAY_TRANSACTIONS" validatePinResp.secretCode
        otpSmsChannel.phone (some otpSmsChannel.type) none
      ([c1, c2] ++ vp.1 ++ [c4] ++ send.1, FlowOutcome.otpSent send.2)

/-- Embedding of `IngApi.makeTransfer` (src/unnamed/part_002 lines 1036-1058):
the transfer context is built from the arguments and the suggested execution
date, passed to `validatePinSensitiveOperationAction`, while the
`sendOneTimePassword` call site omits the context argument (JS default
`null`). -/
def makeTransfer (password : List ℕ) (fromAccount toAccount : String) (amount : ℚ)
    (label : String) (desiredExecutionDate : String)
    (initiatedTransfer : ValidateTransferResp)
    (missingPasswordDigitsPositions : KeypadMetaResp) (digits : List ℕ)
    (rand : ℕ → ℚ) (validatePinResp : ValidatePinResp)
    (oneTimePasswordChannels : List OtpChannel) : List ApiCall × FlowOutcome :=
  let c1 := ApiCall.validateNewTransfer fromAccount toAccount amount label
    (if desiredExecutionDate = "" then none else some desiredExecutionDate)
  let transferRequest : TransferRequest :=
    { fromAccount := fromAccount, toAccount := toAccount, amount := amount,
      label := label, executionDate := initiatedTransfer.executionSuggestedDate }
  let c2 := ApiCall.scaKeyPad "EXTERNAL_TRANSFER"
  let c3 := ApiCall.keypadImage missingPasswordDigitsPositions.keyPadUrl
  match getClicksPositions 5 digits missingPasswordDigitsPositions.pinPositions password rand with
  | none => ([c1, c2, c3], FlowOutcome.crashed)
  | some clickPositions =>
    let vp := validatePinSensitiveOperationAction clickPositions "EXTERNAL_TRANSFER"
      (some (CtxRequest.transfer transferRequest))
    let c5 := ApiCall.otpChannels "EXTERNAL_TRANSFER"
    match findSmsChannel oneTimePasswordChannels with
    | none => ([c1, c2, c3] ++ vp.1 ++ [c5], FlowOutcome.crashed)
    | some otpSmsChannel =>
      let send := sendOneTimePassword "EXTERNAL_TRANSFER" validatePinResp.secretCode
        otpSmsChannel.phone (some otpSmsChannel.type) none
      ([c1, c2, c3] ++ vp.1 ++ [c5] ++ send.1, FlowOutcome.otpSent send.2)

/-- Embedding of `IngApi.addNewBeneficiary` (src/unnamed/part_002 lines
1090-1114): first POST `externalAccounts/add/validateRequest`; when the
response carries an `error` field, return it unchanged at once
(`if (externalAccountRequest.error) return externalAccountRequest`), before
any keypad metadata or keypad image request. -/
def addNewBeneficiary (password : List ℕ) (accountHolderName iban : String)
    (externalAccountRequest : ExternalAccountResp)
    (missingPasswordDigitsPositions : KeypadMetaResp) (digits : List ℕ)
    (rand : ℕ → ℚ) (validatePinResp : ValidatePinResp)
    (oneTimePasswordChannels : List OtpChannel) : List ApiCall × FlowOutcome :=
  let c1 := ApiCall.addExternalAccountValidateRequest accountHolderName iban
  match externalAccountRequest with
  | ExternalAccountResp.error e => ([c1], FlowOutcome.errorPayload e)
  | ExternalAccountResp.ok ext =>
    let c2 := ApiCall.toggleScaStatus "ADD_TRANSFER_BENEFICIARY"
    let c3 := ApiCall.scaKeyPad "ADD_TRANSFER_BENEFICIARY"
    let c4 := ApiCall.keypadImage missingPasswordDigitsPositions.keyPadUrl
    match getClicksPositions 5 digits missingPasswordDigitsPositions.pinPositions password rand with
    | none => ([c1, c2, c3, c4], FlowOutcome.crashed)
    | some clickPositions =>
      let vp := validatePinSensitiveOperationAction clickPositions "ADD_TRANSFER_BENEFICIARY"
        (some (CtxRequest.externalAccount ext))
      let c6 := ApiCall.otpChannels "ADD_TRANSFER_BENEFICIARY"
      match findSmsChannel oneTimePasswordChannels with
      | none => ([c1, c2, c3, c4] ++ vp.1 ++ [c6], FlowOutcome.crashed)
      | some otpSmsChannel =>
        let send := sendOneTimePassword "ADD_TRANSFER_BENEFICIARY" validatePinResp.secretCode
          otpSmsChannel.phone (some otpSmsChannel.type) none
        ([c1, c2, c3, c4] ++ vp.1 ++ [c6] ++ send.1, FlowOutcome.otpSent send.2)

/-- The mutable session object of `IngApi` (src/unnamed/part_002 lines
522-527). -/
structure Session where
  regieId : Option String
  cookie : Option String
  authToken : Option String
  saveInvestToken : Option String
  deriving DecidableEq

/-- The two response headers `callIngSecureApi` inspects
(src/unnamed/part_002 lines 1187-1188): `Set-Cookie` and `Ingdf-Auth-Token`;
`none` models `headers.get` returning `null`. -/
structure RespHeaders where
  setCookie : Option String
  ingdfAuthToken : Option String
  deriving DecidableEq

/-- JavaScript truthiness of a nullable string: `null`/`undefined` and the
empty string are falsy. -/
def jsTruthy : Option String → Bool
  | none => false
  | some s => s != ""

/-- The session-update statements of `IngApi.callIngSecureApi`
(src/unnamed/part_002 lines 1187-1188): overwrite `cookie` when the response
has a truthy `Set-Cookie` header, then overwrite `authToken` when it has a
truthy `Ingdf-Auth-Token` header. -/
def callIngSecureApiApplyHeaders (session : Session) (headers : RespHeaders) : Session :=
  let s1 :=
    if jsTruthy headers.setCookie then { session with cookie := headers.setCookie } else session
  if jsTruthy headers.ingdfAuthToken then { s1 with authToken := headers.ingdfAuthToken } else s1

/-- Embedding of `IngApi.generateSaveInvestApiToken` (src/unnamed/part_002
lines 894-898): call the secure API (whose response headers update the
session) and then store the response's `token` field in
`session.saveInvestToken`. -/
def generateSaveInvestApiToken (session : Session) (headers : RespHeaders)
    (resToken : Option String) : Session :=
  let s1 := callIngSecureApiApplyHeaders session headers
  { s1 with saveInvestToken := resToken }

/-- Recogniser for the two keypad-fetching requests of a sensitive-operation
flow: the `sca/keyPad` metadata POST and the keypad image GET. -/
def isKeypadFetchCall : ApiCall → Bool
  | ApiCall.scaKeyPad _ => true
  | ApiCall.keypadImage _ => true
  | _ => false

/-- Recogniser for the `sca/sendOtp` request. -/
def isSendOtpCall : ApiCall → Bool
  | ApiCall.sendOtp _ => true
  | _ => false

/-- An optional lookup that succeeds names an element of the list. -/
theorem getElemOpt_mem {α : Type} (l : List α) (n : ℕ) (a : α) (h : l[n]? = some a) : a ∈ l := by
  obtain ⟨hn, rfl⟩ := List.getElem?_eq_some.mp h
  exact List.getElem_mem hn

/-- An optional lookup that succeeds is within bounds. -/
theorem getElemOpt_lt {α : Type} (l : List α) (n : ℕ) (a : α) (h : l[n]? = some a) :
    n < l.length :=
  (List.getElem?_eq_some.mp h).1

/-- A member of the list is found by `jsIndexOf`, at an in-bounds index. -/
theorem jsIndexOf_of_mem : ∀ (xs : List ℕ) (v : ℕ), v ∈ xs →
    ∃ i, jsIndexOf xs v = some i ∧ i < xs.length := by
  intro xs
  induction xs with
  | nil => intro v hv; exact absurd hv (List.not_mem_nil v)
  | cons x xs ih =>
    intro v hv
    by_cases hx : x = v
    · exact ⟨0, by simp [jsIndexOf, hx], by simp⟩
    · have hv2 : v ∈ xs := by
        rcases List.mem_cons.mp hv with h | h
        · exact absurd h.symm hx
        · exact h
      obtain ⟨i, hi, hlt⟩ := ih v hv2
      refine ⟨i + 1, by simp [jsIndexOf, hx, hi], ?_⟩
      simpa using Nat.succ_lt_succ hlt

/-- On a duplicate-free list, `jsIndexOf` recovers the index of any occurrence. -/
theorem jsIndexOf_of_nodup : ∀ (xs : List ℕ) (j v : ℕ), xs.Nodup → xs[j]? = some v →
    jsIndexOf xs v = some j := by
  intro xs
  induction xs with
  | nil => intro j v _ h; simp at h
  | cons x xs ih =>
    intro j v hnd h
    cases j with
    | zero =>
      have hx : x = v := by simpa using h
      simp [jsIndexOf, hx]
    | succ j =>
      have h2 : xs[j]? = some v := by simpa using h
      have hnd2 := List.nodup_cons.mp hnd
      have hx : ¬ x = v := by
        intro e
        exact hnd2.1 (e ▸ getElemOpt_mem xs j v h2)
      simp [jsIndexOf, hx, ih j v hnd2.2 h2]

/-- The click synthesis for one digit succeeds exactly when the digit is
clickable. -/
theorem clickForDigit_isSome_iff (m : ℕ) (digits : List ℕ) (rx ry : ℚ) (d : ℕ) :
    (clickForDigit m digits rx ry d).isSome = true ↔ digitClickable digits d := by
  cases h : jsIndexOf digits d with
  | none => simp [clickForDigit, digitClickable, h]
  | some i =>
    cases hp : digitsPositions[i]? with
    | none =>
      have hlen : digitsPositions.length ≤ i := List.getElem?_eq_none_iff.mp hp
      simp only [clickForDigit, digitClickable, h, hp, Option.isSome_none,
        Bool.false_eq_true, false_iff]
      intro hcl
      obtain ⟨i2, hi2, hlt⟩ := hcl
      cases hi2
      omega
    | some r =>
      have hlt : i < digitsPositions.length := getElemOpt_lt _ _ _ hp
      simp only [clickForDigit, digitClickable, h, hp, Option.isSome_some, true_iff]
      exact ⟨i, rfl, hlt⟩

/-- Value of the click synthesis when the digit's cell is known. -/
theorem clickForDigit_eq (m : ℕ) (digits : List ℕ) (rx ry : ℚ) (d i : ℕ) (r : Rect)
    (hi : jsIndexOf digits d = some i) (hr : digitsPositions[i]? = some r) :
    clickForDigit m digits rx ry d =
      some ((r.x : ℚ) * (m : ℚ) + rx * (r.width : ℚ) * (m : ℚ),
            (r.y : ℚ) * (m : ℚ) + ry * (r.height : ℚ) * (m : ℚ)) := by
  simp [clickForDigit, hi, hr]

/-- Success of one step of the click loop splits into a head and a tail
condition. -/
theorem clicksLoop_cons_isSome (m : ℕ) (digits : List ℕ) (rand : ℕ → ℚ) (d : ℕ)
    (os : List (Option ℕ)) (k : ℕ) :
    (clicksLoop m digits rand (some d :: os) k).isSome =
      ((clickForDigit m digits (rand (2 * k)) (rand (2 * k + 1)) d).isSome &&
        (clicksLoop m digits rand os (k + 1)).isSome) := by
  cases hc : clickForDigit m digits (rand (2 * k)) (rand (2 * k + 1)) d <;>
    cases hl : clicksLoop m digits rand os (k + 1) <;>
      simp [clicksLoop, hc, hl]

/-- The click loop succeeds exactly when every entry is a present, clickable
digit. -/
theorem clicksLoop_isSome_iff (m : ℕ) (digits : List ℕ) (rand : ℕ → ℚ) :
    ∀ (os : List (Option ℕ)) (k : ℕ),
      (clicksLoop m digits rand os k).isSome = true ↔
        ∀ o ∈ os, ∃ d, o = some d ∧ digitClickable digits d := by
  intro os
  induction os with
  | nil => intro k; simp [clicksLoop]
  | cons o os ih =>
    intro k
    cases o with
    | none => simp [clicksLoop]
    | some d =>
      rw [clicksLoop_cons_isSome, Bool.and_eq_true, clickForDigit_isSome_iff, ih (k + 1)]
      simp [List.forall_mem_cons]

/-- When every entry is a present, clickable digit, the click loop returns one
click per entry, in order, each computed by `clickForDigit` from that entry's
pair of random draws. -/
theorem clicksLoop_spec (m : ℕ) (digits : List ℕ) (rand : ℕ → ℚ) :
    ∀ (os : List (Option ℕ)) (k : ℕ),
      (∀ o ∈ os, ∃ d, o = some d ∧ digitClickable digits d) →
      ∃ cs, clicksLoop m digits rand os k = some cs ∧ cs.length = os.length ∧
        ∀ n d, os[n]? = some (some d) →
          cs[n]? = clickForDigit m digits (rand (2 * (k + n))) (rand (2 * (k + n) + 1)) d := by
  intro os
  induction os with
  | nil =>
    intro k _
    exact ⟨[], rfl, rfl, by intro n d h; simp at h⟩
  | cons o os ih =>
    intro k hall
    obtain ⟨d, rfl, hck⟩ := hall o (List.mem_cons_self o os)
    have hcs : (clickForDigit m digits (rand (2 * k)) (rand (2 * k + 1)) d).isSome = true :=
      (clickForDigit_isSome_iff m digits _ _ d).mpr hck
    obtain ⟨c, hc⟩ := Option.isSome_iff_exists.mp hcs
    obtain ⟨cs, hl, hlen, hidx⟩ := ih (k + 1) (fun o ho => hall o (List.mem_cons_of_mem _ ho))
    refine ⟨c :: cs, by simp [clicksLoop, hc, hl], by simp [hlen], ?_⟩
    intro n d2 hn
    cases n with
    | zero =>
      have hd2 : d = d2 := by simpa using hn
      subst hd2
      simpa using hc.symm
    | succ n =>
      have hn2 : os[n]? = some (some d2) := by simpa using hn
      have hstep := hidx n d2 hn2
      have e1 : k + 1 + n = k + (n + 1) := by omega
      rw [e1] at hstep
      simpa using hstep

/-- C1 (counterexample): a classified keypad in which digit 5 occupies two
different cells (cells 0 and 1, digit 1 absent) is not a bijection, yet
`getClicksPositions` does not fail: asked for digit 5 it returns a click — at
the top-left cell, the first of the two matching cells — instead of surfacing
the ambiguity. -/
theorem getClicksPositions_nonbijective_counterexample :
    ([5, 5, 2, 3, 4, 0, 6, 7, 8, 9] : List ℕ)[0]? = some 5 ∧
    ([5, 5, 2, 3, 4, 0, 6, 7, 8, 9] : List ℕ)[1]? = some 5 ∧
    getClicksPositions 1 [5, 5, 2, 3, 4, 0, 6, 7, 8, 9] [1] [5] (fun _ => 0) =
      some [(3, 3)] := by
  refine ⟨rfl, rfl, ?_⟩
  have h1 : jsIndexOf [5, 5, 2, 3, 4, 0, 6, 7, 8, 9] 5 = some 0 := by decide
  have h2 : digitsPositions[0]? = some ⟨3, 3, 90, 88⟩ := rfl
  have h3 := clickForDigit_eq 1 [5, 5, 2, 3, 4, 0, 6, 7, 8, 9] 0 0 5 0 ⟨3, 3, 90, 88⟩ h1 h2
  norm_num at h3
  rw [show getClicksPositions 1 [5, 5, 2, 3, 4, 0, 6, 7, 8, 9] [1] [5] (fun _ => 0)
      = clicksLoop 1 [5, 5, 2, 3, 4, 0, 6, 7, 8, 9] (fun _ => 0) [some 5] 0 from rfl]
  simp [clicksLoop, h3]

/-- C1 (amended): `getClicksPositions` performs no bijectivity check on the
classified keypad: it succeeds exactly when every requested password digit is
present and clickable (a duplicated digit is resolved silently through the
first matching cell, as the counterexample shows), and fails only when a
requested digit is absent from the classification or a position is out of
range. -/
theorem getClicksPositions_isSome_iff (m : ℕ) (digits missing password : List ℕ)
    (rand : ℕ → ℚ) :
    (getClicksPositions m digits missing password rand).isSome = true ↔
      ∀ p ∈ missing, ∃ d, pwdDigitAt password p = some d ∧ digitClickable digits d := by
  unfold getClicksPositions
  rw [clicksLoop_isSome_iff]
  constructor
  · intro h p hp
    exact h (pwdDigitAt password p) (List.mem_map_of_mem _ hp)
  · intro h o ho
    obtain ⟨p, hp, rfl⟩ := List.mem_map.mp ho
    exact h p hp

/-- C5: for a classified keypad that is a permutation of the digits 0-9 and a
request list whose positions all index a digit of the password, the solver
returns exactly one click per requested position, and the click at output
index `n` is the one computed for the digit at the `n`-th requested position
(order preserved). -/
theorem getClicksPositions_length_and_order (m : ℕ) (digits missing password : List ℕ)
    (rand : ℕ → ℚ) (hperm : digits.Perm (List.range 10))
    (hmiss : ∀ p ∈ missing, ∃ d, pwdDigitAt password p = some d ∧ d < 10) :
    ∃ cs, getClicksPositions m digits missing password rand = some cs ∧
      cs.length = missing.length ∧
      ∀ n p d, missing[n]? = some p → pwdDigitAt password p = some d →
        cs[n]? = clickForDigit m digits (rand (2 * n)) (rand (2 * n + 1)) d := by
  have hclickable : ∀ o ∈ missing.map (pwdDigitAt password),
      ∃ d, o = some d ∧ digitClickable digits d := by
    intro o ho
    obtain ⟨p, hp, rfl⟩ := List.mem_map.mp ho
    obtain ⟨d, hd, hd10⟩ := hmiss p hp
    refine ⟨d, hd, ?_⟩
    have hmem : d ∈ digits := hperm.mem_iff.mpr (List.mem_range.mpr hd10)
    obtain ⟨i, hi, hilt⟩ := jsIndexOf_of_mem digits d hmem
    refine ⟨i, hi, ?_⟩
    have hdl : digits.length = 10 := by simpa using hperm.length_eq
    have : digitsPositions.length = 10 := rfl
    omega
  obtain ⟨cs, hl, hlen, hidx⟩ := clicksLoop_spec m digits rand _ 0 hclickable
  refine ⟨cs, hl, by simpa using hlen, ?_⟩
  intro n p d hn hd
  have hos : (missing.map (pwdDigitAt password))[n]? = some (some d) := by
    rw [List.getElem?_map (pwdDigitAt password) missing n, hn]
    simp [hd]
  have := hidx n d hos
  simpa using this

/-- C5 (witness): a concrete run on the identity keypad requesting positions
2 then 1 of the password 98 produces exactly two clicks. -/
theorem getClicksPositions_length_and_order_witness :
    ∃ cs, getClicksPositions 1 (List.range 10) [2, 1] [9, 8] (fun _ => 0) = some cs ∧
      cs.length = 2 := by
  obtain ⟨cs, h1, h2, _⟩ := getClicksPositions_length_and_order 1 (List.range 10) [2, 1]
    [9, 8] (fun _ => 0) (List.Perm.refl _) (by
      intro p hp
      fin_cases hp
      · exact ⟨8, rfl, by norm_num⟩
      · exact ⟨9, rfl, by norm_num⟩)
  exact ⟨cs, h1, h2⟩

/-- C6: under the same hypotheses, with random draws in `[0, 1)` and a size
multiplier of at least 1, the click returned for the requested position at
output index `n` lies in the half-open box of the cell whose classified digit
is the password digit at that position: x within the scaled
`[cell.x, cell.x + cell.width)` and y within the scaled
`[cell.y, cell.y + cell.height)`. -/
theorem getClicksPositions_click_in_cell (m : ℕ) (digits missing password : List ℕ)
    (rand : ℕ → ℚ) (n p d j : ℕ) (hperm : digits.Perm (List.range 10))
    (hmiss : ∀ q ∈ missing, ∃ e, pwdDigitAt password q = some e ∧ e < 10)
    (hm : 1 ≤ m) (hrand : ∀ k, 0 ≤ rand k ∧ rand k < 1)
    (hn : missing[n]? = some p) (hd : pwdDigitAt password p = some d)
    (hj : digits[j]? = some d) :
    ∃ cs c cell, getClicksPositions m digits missing password rand = some cs ∧
      cs[n]? = some c ∧ digitsPositions[j]? = some cell ∧
      (cell.x : ℚ) * (m : ℚ) ≤ c.1 ∧ c.1 < ((cell.x : ℚ) + (cell.width : ℚ)) * (m : ℚ) ∧
      (cell.y : ℚ) * (m : ℚ) ≤ c.2 ∧ c.2 < ((cell.y : ℚ) + (cell.height : ℚ)) * (m : ℚ) := by
  obtain ⟨cs, hl, hlen, hidx⟩ :=
    getClicksPositions_length_and_order m digits missing password rand hperm hmiss
  have hnodup : digits.Nodup := hperm.nodup_iff.mpr (List.nodup_range 10)
  have hji : jsIndexOf digits d = some j := jsIndexOf_of_nodup digits j d hnodup hj
  have hjlt : j < digitsPositions.length := by
    have h1 : j < digits.length := getElemOpt_lt _ _ _ hj
    have h2 : digits.length = 10 := by simpa using hperm.length_eq
    have h3 : digitsPositions.length = 10 := rfl
    omega
  have hcell : digitsPositions[j]? = some digitsPositions[j] := List.getElem?_eq_getElem hjlt
  set cell := digitsPositions[j] with hcelldef
  have hclick := clickForDigit_eq m digits (rand (2 * n)) (rand (2 * n + 1)) d j cell hji hcell
  have hcs := hidx n p d hn hd
  rw [hclick] at hcs
  have hwh : ∀ r ∈ digitsPositions, 0 < r.width ∧ 0 < r.height := by decide
  have hcellmem : cell ∈ digitsPositions := getElemOpt_mem _ _ _ hcell
  have hw : (0 : ℚ) < (cell.width : ℚ) := by exact_mod_cast (hwh cell hcellmem).1
  have hh : (0 : ℚ) < (cell.height : ℚ) := by exact_mod_cast (hwh cell hcellmem).2
  have hm2 : (1 : ℚ) ≤ (m : ℚ) := by exact_mod_cast hm
  have hmpos : (0 : ℚ) < (m : ℚ) := lt_of_lt_of_le zero_lt_one hm2
  have hrx := hrand (2 * n)
  have hry := hrand (2 * n + 1)
  refine ⟨cs, _, cell, hl, hcs, hcell, ?_, ?_, ?_, ?_⟩
  · show (cell.x : ℚ) * (m : ℚ) ≤
      (cell.x : ℚ) * (m : ℚ) + rand (2 * n) * (cell.width : ℚ) * (m : ℚ)
    nlinarith [mul_nonneg (mul_nonneg hrx.1 hw.le) hmpos.le]
  · show (cell.x : ℚ) * (m : ℚ) + rand (2 * n) * (cell.width : ℚ) * (m : ℚ) <
      ((cell.x : ℚ) + (cell.width : ℚ)) * (m : ℚ)
    nlinarith [mul_pos hw hmpos, hrx.2, hrx.1]
  · show (cell.y : ℚ) * (m : ℚ) ≤
      (cell.y : ℚ) * (m : ℚ) + rand (2 * n + 1) * (cell.height : ℚ) * (m : ℚ)
    nlinarith [mul_nonneg (mul_nonneg hry.1 hh.le) hmpos.le]
  · show (cell.y : ℚ) * (m : ℚ) + rand (2 * n + 1) * (cell.height : ℚ) * (m : ℚ) <
      ((cell.y : ℚ) + (cell.height : ℚ)) * (m : ℚ)
    nlinarith [mul_pos hh hmpos, hry.2, hry.1]

/-- C6 (witness): a concrete run on the identity keypad, requesting position 1
of the password 7 with all random draws 1/2, lands in cell 7. -/
theorem getClicksPositions_click_in_cell_witness :
    ∃ cs, getClicksPositions 1 (List.range 10) [1] [7] (fun _ => (1 : ℚ) / 2) = some cs := by
  obtain ⟨cs, c, cell, h1, -⟩ :=
    getClicksPositions_click_in_cell 1 (List.range 10) [1] [7] (fun _ => (1 : ℚ) / 2)
      0 1 7 7 (List.Perm.refl _)
      (by
        intro q hq
        fin_cases hq
        exact ⟨7, rfl, by norm_num⟩)
      (le_refl 1) (fun k => ⟨by norm_num, by norm_num⟩) rfl rfl (by decide)
  exact ⟨cs, h1⟩

/-- Invariant of the classification loop: either no scanned difference beat
the incoming best value `p` (result is the incoming best index `b`), or the
result points at the first strict minimum of the scanned differences, which
also beats `p`. -/
theorem getDigitsLoop_spec : ∀ (vs : List ℚ) (j b : ℕ) (p : ℚ),
    (getDigitsLoop vs j b p = b ∧ ∀ v ∈ vs, p ≤ v) ∨
    (∃ k v, vs[k]? = some v ∧ getDigitsLoop vs j b p = j + k ∧ v < p ∧
      (∀ w ∈ vs, v ≤ w) ∧ ∀ l, l < k → ∀ w, vs[l]? = some w → v < w) := by
  intro vs
  induction vs with
  | nil =>
    intro j b p
    left
    exact ⟨rfl, by simp⟩
  | cons v vs ih =>
    intro j b p
    by_cases hv : v < p
    · right
      rcases ih (j + 1) j v with ⟨he, hall⟩ | ⟨k, v2, hk, he, hlt, hmin, hstrict⟩
      · refine ⟨0, v, by simp, ?_, hv, ?_, ?_⟩
        · simp [getDigitsLoop, hv, he]
        · intro w hw
          rcases List.mem_cons.mp hw with rfl | hw2
          · exact le_refl w
          · exact hall w hw2
        · intro l hl
          omega
      · refine ⟨k + 1, v2, by simpa using hk, ?_, lt_trans hlt hv, ?_, ?_⟩
        · have : getDigitsLoop (v :: vs) j b p = j + 1 + k := by
            simp [getDigitsLoop, hv, he]
          rw [this]
          omega
        · intro w hw
          rcases List.mem_cons.mp hw with rfl | hw2
          · exact hlt.le
          · exact hmin w hw2
        · intro l hl w hw
          cases l with
          | zero =>
            have : v = w := by simpa using hw
            exact this ▸ hlt
          | succ l =>
            exact hstrict l (by omega) w (by simpa using hw)
    · rcases ih (j + 1) b p with ⟨he, hall⟩ | ⟨k, v2, hk, he, hlt, hmin, hstrict⟩
      · left
        refine ⟨by simp [getDigitsLoop, hv, he], ?_⟩
        intro w hw
        rcases List.mem_cons.mp hw with rfl | hw2
        · exact not_lt.mp hv
        · exact hall w hw2
      · right
        refine ⟨k + 1, v2, by simpa using hk, ?_, hlt, ?_, ?_⟩
        · have : getDigitsLoop (v :: vs) j b p = j + 1 + k := by
            simp [getDigitsLoop, hv, he]
          rw [this]
          omega
        · intro w hw
          rcases List.mem_cons.mp hw with rfl | hw2
          · exact le_trans hlt.le (not_lt.mp hv)
          · exact hmin w hw2
        · intro l hl w hw
          cases l with
          | zero =>
            have hvw : v = w := by simpa using hw
            exact hvw ▸ lt_of_lt_of_le hlt (not_lt.mp hv)
          | succ l =>
            exact hstrict l (by omega) w (by simpa using hw)

/-- The classification of a nonempty difference list is an in-bounds template
index. -/
theorem classifyCell_lt (diffs : List ℚ) (hne : diffs ≠ []) :
    classifyCell diffs < diffs.length := by
  unfold classifyCell
  rcases getDigitsLoop_spec diffs 0 0 1 with ⟨he, -⟩ | ⟨k, v, hk, he, -⟩
  · rw [he]
    exact List.length_pos.mpr hne
  · rw [he]
    have := getElemOpt_lt _ _ _ hk
    omega

/-- On an all-ones difference list the loop never updates: the incoming best
index survives. -/
theorem getDigitsLoop_all_ones : ∀ (vs : List ℚ), (∀ v ∈ vs, v = 1) →
    ∀ j b, getDigitsLoop vs j b 1 = b := by
  intro vs
  induction vs with
  | nil => intro _ j b; rfl
  | cons v vs ih =>
    intro h j b
    have hv : v = 1 := h v (List.mem_cons_self v vs)
    have hnlt : ¬ v < 1 := by rw [hv]; exact lt_irrefl 1
    simp only [getDigitsLoop, if_neg hnlt]
    exact ih (fun w hw => h w (List.mem_cons_of_mem _ hw)) (j + 1) b

/-- C8: for any cell's list of pixel-difference percentages (each at most 1,
as a percentage of differing pixels is), the selected template index carries
the minimum difference, and every earlier template has a strictly larger
difference — i.e. the selection is the least index attaining the minimum,
with ties broken by the lower digit because the loop updates only on a
strict `<` comparison. -/
theorem classifyCell_least_argmin (diffs : List ℚ) (hne : diffs ≠ [])
    (hle : ∀ v ∈ diffs, v ≤ 1) :
    ∃ mv, diffs[classifyCell diffs]? = some mv ∧ (∀ v ∈ diffs, mv ≤ v) ∧
      ∀ l, l < classifyCell diffs → ∀ w, diffs[l]? = some w → mv < w := by
  unfold classifyCell
  rcases getDigitsLoop_spec diffs 0 0 1 with ⟨he, hall⟩ | ⟨k, v, hk, he, hlt, hmin, hstrict⟩
  · rw [he]
    obtain ⟨v0, hv0⟩ : ∃ v0, diffs[0]? = some v0 := by
      cases diffs with
      | nil => exact absurd rfl hne
      | cons a l => exact ⟨a, by simp⟩
    refine ⟨v0, hv0, ?_, ?_⟩
    · intro v hv
      have h2 : v0 ≤ 1 := hle v0 (getElemOpt_mem _ _ _ hv0)
      exact le_trans h2 (hall v hv)
    · intro l hl
      omega
  · rw [he]
    simp only [Nat.zero_add]
    exact ⟨v, hk, hmin, fun l hl w hw => hstrict l hl w hw⟩

/-- C8 (witness): on the difference list 3/10, 1/5, 1/5, 1 the selected index
carries the minimum 1/5 and every earlier entry is strictly larger. -/
theorem classifyCell_least_argmin_witness :
    ∃ mv, [(3 : ℚ)/10, 1/5, 1/5, 1][classifyCell [(3 : ℚ)/10, 1/5, 1/5, 1]]? = some mv ∧
      (∀ v ∈ [(3 : ℚ)/10, 1/5, 1/5, 1], mv ≤ v) ∧
      ∀ l, l < classifyCell [(3 : ℚ)/10, 1/5, 1/5, 1] →
        ∀ w, [(3 : ℚ)/10, 1/5, 1/5, 1][l]? = some w → mv < w :=
  classifyCell_least_argmin [(3 : ℚ)/10, 1/5, 1/5, 1] (by simp)
    (by
      intro v hv
      fin_cases hv <;> norm_num)

/-- C10: the classifier is total and has no error branch: for every difference
matrix it returns exactly 10 digits, each in 0-9; and a cell whose difference
against every template equals the initialisation threshold 1 is silently
classified as digit 0, the initialisation value of `closestDigit`. -/
theorem getDigits_total (diff : ℕ → ℕ → ℚ) :
    (getDigits diff).length = 10 ∧ (∀ d ∈ getDigits diff, d < 10) ∧
      ∀ c, c < 10 → (∀ t, t < 10 → diff c t = 1) → (getDigits diff)[c]? = some 0 := by
  refine ⟨by simp only [getDigits, List.length_map, List.length_range]; rfl, ?_, ?_⟩
  · intro d hd
    obtain ⟨c, -, rfl⟩ := List.mem_map.mp hd
    have hlen : ((List.range digitsPositions.length).map (fun t => diff c t)).length = 10 := by
      simp only [List.length_map, List.length_range]
      rfl
    have hne : (List.range digitsPositions.length).map (fun t => diff c t) ≠ [] := by
      intro h
      rw [h] at hlen
      simp at hlen
    have := classifyCell_lt _ hne
    omega
  · intro c hc hones
    unfold getDigits
    rw [List.getElem?_map, List.getElem?_range (show c < digitsPositions.length from hc)]
    have hall : ∀ v ∈ (List.range digitsPositions.length).map (fun t => diff c t), v = 1 := by
      intro v hv
      obtain ⟨t, ht, rfl⟩ := List.mem_map.mp hv
      exact hones t (by simpa using List.mem_range.mp ht)
    have : classifyCell ((List.range digitsPositions.length).map (fun t => diff c t)) = 0 :=
      getDigitsLoop_all_ones _ hall 0 0
    simp [this]

/-- C10 (witness): on the all-ones difference matrix the classifier returns
ten digits and classifies cell 0 as digit 0. -/
theorem getDigits_total_witness :
    (getDigits (fun _ _ => 1)).length = 10 ∧ (getDigits (fun _ _ => 1))[0]? = some 0 :=
  ⟨(getDigits_total (fun _ _ => 1)).1,
   (getDigits_total (fun _ _ => 1)).2.2 0 (by norm_num) (fun _ _ => rfl)⟩

/-- C2 (counterexample): calling `sendOneTimePassword` with no `secretCode`
(pin validation never completed) still issues exactly one `sca/sendOtp`
transport request — there is no local sequencing check and the call is not
rejected. -/
theorem sendOneTimePassword_no_secretCode_counterexample :
    ((sendOneTimePassword "DISPLAY_TRANSACTIONS" none none none none).1).length = 1 :=
  rfl

/-- C2 (amended): `sendOneTimePassword` performs no local check of the flow
state: for every argument tuple, including an absent `secretCode`, it issues
exactly one `sca/sendOtp` request to the transport, whose body carries the
given `secretCode` value unchanged; a sequencing violation is only detected
server-side. -/
theorem sendOneTimePassword_always_calls_transport (sensitiveOperationAction : String)
    (secretCode channelValue channelType : Option String) (request : Option CtxRequest) :
    ∃ b, (sendOneTimePassword sensitiveOperationAction secretCode channelValue
        channelType request).1 = [ApiCall.sendOtp b] ∧
      b.secretCode = secretCode ∧ b.sensitiveOperationAction = sensitiveOperationAction ∧
      (sendOneTimePassword sensitiveOperationAction secretCode channelValue
        channelType request).2 = b :=
  ⟨_, rfl, rfl, rfl, rfl⟩

/-- C3 (counterexample): in a concrete `makeTransfer` run the single
`sca/validatePin` request carries the transfer context, while the single
`sca/sendOtp` request carries no context at all — the OTP-dispatch body does
not contain the context that pin validation carried. -/
theorem makeTransfer_context_not_resent_counterexample :
    (makeTransfer [1, 2, 3, 4, 5, 6] "FR001" "FR002" 100 "loyer" "" ⟨"2021-05-01"⟩
        ⟨[1, 2], "keypad/abc.png"⟩ (List.range 10) (fun _ => 0)
        ⟨true, some "SC123", false⟩ [⟨some "+33600000000", "SMS_MOBILE"⟩]).1.filterMap
        (fun c => match c with
          | ApiCall.validatePin b => some b.transactionRequest
          | _ => none)
      = [some (CtxRequest.transfer ⟨"FR001", "FR002", 100, "loyer", "2021-05-01"⟩)] ∧
    (makeTransfer [1, 2, 3, 4, 5, 6] "FR001" "FR002" 100 "loyer" "" ⟨"2021-05-01"⟩
        ⟨[1, 2], "keypad/abc.png"⟩ (List.range 10) (fun _ => 0)
        ⟨true, some "SC123", false⟩ [⟨some "+33600000000", "SMS_MOBILE"⟩]).1.filterMap
        (fun c => match c with
          | ApiCall.sendOtp b => some b.transactionRequest
          | _ => none)
      = [none] := by
  have h1 : jsIndexOf (List.range 10) 1 = some 1 := by decide
  have h2 : jsIndexOf (List.range 10) 2 = some 2 := by decide
  have hc1 := clickForDigit_eq 5 (List.range 10) 0 0 1 1 ⟨99, 3, 90, 88⟩ h1 rfl
  have hc2 := clickForDigit_eq 5 (List.range 10) 0 0 2 2 ⟨196, 3, 90, 88⟩ h2 rfl
  norm_num at hc1 hc2
  have hclicks : getClicksPositions 5 (List.range 10) [1, 2] [1, 2, 3, 4, 5, 6]
      (fun _ => 0) = some [(495, 15), (980, 15)] := by
    rw [show getClicksPositions 5 (List.range 10) [1, 2] [1, 2, 3, 4, 5, 6] (fun _ => 0)
        = clicksLoop 5 (List.range 10) (fun _ => 0) [some 1, some 2] 0 from rfl]
    simp [clicksLoop, hc1, hc2]
  simp [makeTransfer, hclicks, validatePinSensitiveOperationAction, sendOneTimePassword,
    findSmsChannel, List.find?]

/-- C3 (amended): in both context-carrying flows — `makeTransfer`
(EXTERNAL_TRANSFER, transfer context) and `addNewBeneficiary`
(ADD_TRANSFER_BENEFICIARY, external-account context) — the `sca/validatePin`
request carries the flow's operation context, but every `sca/sendOtp` request
carries none: the context argument is omitted at both `sendOneTimePassword`
call sites (JS default `null`), so neither `transactionRequest` nor
`externalAccountsRequest` is set in the sendOtp body. -/
theorem sensitiveFlows_sendOtp_context_none :
    (∀ (password : List ℕ) (fromAccount toAccount : String) (amount : ℚ)
        (label desiredExecutionDate : String) (initiatedTransfer : ValidateTransferResp)
        (kres : KeypadMetaResp) (digits : List ℕ) (rand : ℕ → ℚ)
        (vpres : ValidatePinResp) (channels : List OtpChannel),
      ((makeTransfer password fromAccount toAccount amount label desiredExecutionDate
          initiatedTransfer kres digits rand vpres channels).1.all
        (fun c => match c with
          | ApiCall.sendOtp b =>
              b.transactionRequest == none && b.externalAccountsRequest == none
          | ApiCall.validatePin b =>
              b.transactionRequest ==
                some (CtxRequest.transfer ⟨fromAccount, toAccount, amount, label,
                  initiatedTransfer.executionSuggestedDate⟩)
          | _ => true)) = true) ∧
    ∀ (password : List ℕ) (accountHolderName iban : String)
        (ext : ExternalAccountRequest) (kres : KeypadMetaResp) (digits : List ℕ)
        (rand : ℕ → ℚ) (vpres : ValidatePinResp) (channels : List OtpChannel),
      ((addNewBeneficiary password accountHolderName iban (ExternalAccountResp.ok ext)
          kres digits rand vpres channels).1.all
        (fun c => match c with
          | ApiCall.sendOtp b =>
              b.transactionRequest == none && b.externalAccountsRequest == none
          | ApiCall.validatePin b =>
              b.externalAccountsRequest == some (CtxRequest.externalAccount ext) &&
                b.transactionRequest == none
          | _ => true)) = true := by
  constructor
  · intro password fromAccount toAccount amount label desiredExecutionDate
      initiatedTransfer kres digits rand vpres channels
    unfold makeTransfer
    cases hgc : getClicksPositions 5 digits kres.pinPositions password rand with
    | none => rfl
    | some clicks =>
      cases hch : findSmsChannel channels with
      | none =>
        simp [validatePinSensitiveOperationAction]
      | some ch =>
        simp [validatePinSensitiveOperationAction, sendOneTimePassword]
  · intro password accountHolderName iban ext kres digits rand vpres channels
    unfold addNewBeneficiary
    cases hgc : getClicksPositions 5 digits kres.pinPositions password rand with
    | none => rfl
    | some clicks =>
      cases hch : findSmsChannel channels with
      | none =>
        simp [validatePinSensitiveOperationAction]
      | some ch =>
        simp [validatePinSensitiveOperationAction, sendOneTimePassword]

/-- C4: when the external-account pre-validation of `addNewBeneficiary`
returns a business error, the flow stops at once: the only request issued is
the `externalAccounts/add/validateRequest` POST, the error payload is
returned to the caller unchanged, and no keypad-metadata or keypad-image
request is ever issued. -/
theorem addNewBeneficiary_error_short_circuit (password : List ℕ)
    (accountHolderName iban : String) (e : IngError) (kres : KeypadMetaResp)
    (digits : List ℕ) (rand : ℕ → ℚ) (vpres : ValidatePinResp)
    (channels : List OtpChannel) :
    addNewBeneficiary password accountHolderName iban (ExternalAccountResp.error e)
        kres digits rand vpres channels
      = ([ApiCall.addExternalAccountValidateRequest accountHolderName iban],
         FlowOutcome.errorPayload e) ∧
    ((addNewBeneficiary password accountHolderName iban (ExternalAccountResp.error e)
        kres digits rand vpres channels).1.all (fun c => !(isKeypadFetchCall c))) = true :=
  ⟨rfl, rfl⟩

/-- C7: OTP channel selection returns the first channel of type SMS_MOBILE —
every earlier channel has a different type — and when no channel has that
type the flow is fatal: `accessMoreTransactions` crashes (the JS `TypeError`
on reading `.phone` of `undefined`) and issues no `sca/sendOtp` request. -/
theorem otpChannels_first_sms_selected (channels : List OtpChannel) :
    (∀ ch, findSmsChannel channels = some ch →
        ch.type = "SMS_MOBILE" ∧
        ∃ k : ℕ, channels[k]? = some ch ∧
          ∀ l : ℕ, l < k → ∀ ch2, channels[l]? = some ch2 → ch2.type ≠ "SMS_MOBILE") ∧
    (findSmsChannel channels = none →
        ∀ password kres digits rand vpres,
          (accessMoreTransactions password kres digits rand vpres channels).2
              = FlowOutcome.crashed ∧
          ((accessMoreTransactions password kres digits rand vpres channels).1.all
            (fun c => !(isSendOtpCall c))) = true) := by
  constructor
  · induction channels with
    | nil => intro ch h; simp [findSmsChannel] at h
    | cons c0 cs ih =>
      intro ch h
      by_cases hc0 : c0.type = "SMS_MOBILE"
      · have he : findSmsChannel (c0 :: cs) = some c0 := by
          simp [findSmsChannel, List.find?_cons, hc0]
        rw [he] at h
        cases h
        refine ⟨hc0, 0, by simp, ?_⟩
        intro l hl
        omega
      · have he : findSmsChannel (c0 :: cs) = findSmsChannel cs := by
          simp [findSmsChannel, List.find?_cons, hc0]
        rw [he] at h
        obtain ⟨hty, k, hk, hbefore⟩ := ih ch h
        refine ⟨hty, k + 1, by simpa using hk, ?_⟩
        intro l hl ch2 h2
        cases l with
        | zero =>
          have : c0 = ch2 := by simpa using h2
          exact this ▸ hc0
        | succ l =>
          exact hbefore l (by omega) ch2 (by simpa using h2)
  · intro hnone password kres digits rand vpres
    cases hgc : getClicksPositions 5 digits kres.pinPositions password rand with
    | none =>
      exact ⟨by simp [accessMoreTransactions, hgc],
        by simp [accessMoreTransactions, hgc, isSendOtpCall]⟩
    | some clicks =>
      constructor
      · simp [accessMoreTransactions, hgc, hnone]
      · simp [accessMoreTransactions, hgc, hnone, validatePinSensitiveOperationAction,
          isSendOtpCall]

/-- C7 (witness): on the channel list EMAIL then SMS_MOBILE, selection picks
the second entry, the first SMS_MOBILE match. -/
theorem otpChannels_first_sms_selected_witness :
    (⟨some "+33600000000", "SMS_MOBILE"⟩ : OtpChannel).type = "SMS_MOBILE" ∧
    ∃ k : ℕ, ([⟨none, "EMAIL"⟩, ⟨some "+33600000000", "SMS_MOBILE"⟩] : List OtpChannel)[k]?
        = some ⟨some "+33600000000", "SMS_MOBILE"⟩ ∧
      ∀ l : ℕ, l < k → ∀ ch2,
        ([⟨none, "EMAIL"⟩, ⟨some "+33600000000", "SMS_MOBILE"⟩] : List OtpChannel)[l]?
            = some ch2 → ch2.type ≠ "SMS_MOBILE" :=
  (otpChannels_first_sms_selected
      [⟨none, "EMAIL"⟩, ⟨some "+33600000000", "SMS_MOBILE"⟩]).1
    ⟨some "+33600000000", "SMS_MOBILE"⟩ (by decide)

/-- C9: applying a secure-API response to the session overwrites the cookie
exactly when the response carries a (non-empty) `Set-Cookie` header and the
auth token exactly when it carries a (non-empty) `Ingdf-Auth-Token` header;
no other session field changes — in particular `saveInvestToken` and
`regieId` are untouched — and `saveInvestToken` is set only by the explicit
`generateSaveInvestApiToken` step, which stores the response's `token`
field. -/
theorem callIngSecureApi_session_update (s : Session) (h : RespHeaders)
    (hc : ∀ c, h.setCookie = some c → c ≠ "")
    (ht : ∀ t, h.ingdfAuthToken = some t → t ≠ "") :
    ((callIngSecureApiApplyHeaders s h).cookie
        = if h.setCookie.isSome then h.setCookie else s.cookie) ∧
    ((callIngSecureApiApplyHeaders s h).authToken
        = if h.ingdfAuthToken.isSome then h.ingdfAuthToken else s.authToken) ∧
    (callIngSecureApiApplyHeaders s h).saveInvestToken = s.saveInvestToken ∧
    (callIngSecureApiApplyHeaders s h).regieId = s.regieId ∧
    ∀ (h2 : RespHeaders) (tok : Option String),
      (generateSaveInvestApiToken s h2 tok).saveInvestToken = tok := by
  have hjc : jsTruthy h.setCookie = h.setCookie.isSome := by
    cases hsc : h.setCookie with
    | none => rfl
    | some c =>
      have : c ≠ "" := hc c hsc
      simp [jsTruthy, this]
  have hjt : jsTruthy h.ingdfAuthToken = h.ingdfAuthToken.isSome := by
    cases hat : h.ingdfAuthToken with
    | none => rfl
    | some t =>
      have : t ≠ "" := ht t hat
      simp [jsTruthy, this]
  refine ⟨?_, ?_, ?_, ?_, fun h2 tok => rfl⟩ <;>
    · unfold callIngSecureApiApplyHeaders
      rw [hjc, hjt]
      cases hsc : h.setCookie.isSome <;> cases hat : h.ingdfAuthToken.isSome <;> simp

/-- C9 (witness): a response carrying only a session cookie overwrites the
cookie and leaves the save-invest token untouched. -/
theorem callIngSecureApi_session_update_witness :
    (callIngSecureApiApplyHeaders ⟨some "r", some "c0", some "t0", some "s0"⟩
        ⟨some "c1", none⟩).saveInvestToken = some "s0" :=
  (callIngSecureApi_session_update ⟨some "r", some "c0", some "t0", some "s0"⟩
      ⟨some "c1", none⟩
      (fun c hcc => by cases hcc; decide)
      (fun t htt => by cases htt)).2.2.1
